import Mathlib

/-!
Ropix-Share transfer manager: a shallow embedding.

This file embeds the consumer-side transfer manager of Ropix-Share
(`createTransferManager` in `frontend/src/lib/transfer.js`, mirrored in the
repository snapshot inside `frontend/vite.config.js`) together with its
manifest-signature helper, and proves or refutes specification properties of
it.

Modelling conventions:
* JavaScript byte buffers (`Uint8Array`) are `List Nat`.
* The platform digest primitive `crypto.subtle.digest('SHA-256', ·)` rendered
  as hex by `bufferToHex` is not repository code; it is modelled as an
  arbitrary function `CryptoEnv.sha256Hex : List Nat → String` so every
  theorem holds for whatever digest the browser supplies.  `crypto?.subtle`
  availability is the flag `CryptoEnv.subtleAvailable`.
* `TextEncoder.encode` is `encodeUtf8` (UTF-8 bytes of the string).
* Base64 transport decoding (`base64ToUint8Array` over the platform `atob`)
  is modelled at the boundary: a `ChunkMsg.content` carries the decoded bytes.
* A JavaScript field that may be `undefined` is an `Option`; a JS `Map` is an
  association list with unique keys (`mapGet` / `mapSet` / `mapDelete`).
* The JS functions mutate the shared `sessions` map and signal failure by
  `throw`; each is embedded as a state-passing function returning the map
  after all mutations performed before the throw, paired with the error (if
  any).  `finalize` additionally returns the payload handed to the
  deliver-to-user sink (`onComplete`).
-/

namespace RopixShare

/-- Byte sequences (`Uint8Array` contents), one `Nat` per byte. -/
abbrev Bytes := List Nat

/-- One entry of `manifest.chunks`: `{index, hash}` (the receiver reads only
`hash`; `index` is positional). -/
structure ChunkEntry where
  index : Nat
  hash : String
deriving Repr, DecidableEq

/-- The fields of `data.manifest` that the receiver reads.  Each is optional
because a JS object may lack it (`undefined`). -/
structure ManifestData where
  file_id : Option String
  total_size : Option Nat
  chunks : Option (List ChunkEntry)
deriving Repr, DecidableEq

/-- A `file_manifest` socket message, as read by `handleManifest`. -/
structure ManifestMsg where
  file_id : Option String
  manifest : Option ManifestData
  manifest_signature : Option String
  filename : Option String
  mime_type : Option String
deriving Repr, DecidableEq

/-- A `file_chunk` socket message, as read by `handleChunk`; `content` holds
the base64-decoded payload bytes, `chunk_index` is an integer (possibly
negative on hostile input). -/
structure ChunkMsg where
  file_id : Option String
  chunk_index : Int
  content : Bytes
deriving Repr, DecidableEq

/-- The platform crypto surface used by the code: `crypto?.subtle`
availability, and the SHA-256-as-hex digest `sha256Hex`. -/
structure CryptoEnv where
  subtleAvailable : Bool
  sha256Hex : Bytes → String

/-- The errors thrown by the transfer manager.  `typeError` stands for the
implicit JavaScript `TypeError` raised by dereferencing `undefined`
(`manifest.chunks.map` / `chunks[i]` when `chunks` is absent). -/
inductive TransferError where
  | webCryptoUnavailable
  | manifestMissingFields
  | typeError
  | signatureMismatch
  | noActiveSession
  | unexpectedChunkIndex (i : Int)
  | chunkHashMismatch (i : Int)
  | unknownTransfer
  | incompleteTransfer
deriving Repr, DecidableEq

/-- Per-`file_id` session state stored in the `sessions` map. -/
structure TransferSession where
  manifest : ManifestData
  filename : Option String
  mimeType : Option String
  chunkBuffers : List (Option Bytes)
  receivedChunks : Nat
deriving Repr, DecidableEq

/-- What `finalize` hands to the `onComplete` deliver-to-user sink:
the blob's bytes plus the identifying metadata. -/
structure Delivery where
  file_id : Option String
  bytes : Bytes
  filename : String
  mimeType : Option String
deriving Repr, DecidableEq

/-! ## JS primitives -/

/-- JS truthiness of a possibly-absent string (`undefined`, `null` and `""`
are falsy). -/
def truthyStr : Option String → Bool
  | none => false
  | some s => !s.isEmpty

/-- JS string interpolation of a possibly-absent string (`undefined` prints
as `"undefined"`). -/
def jsStr : Option String → String
  | none => "undefined"
  | some s => s

/-- JS string interpolation of a possibly-absent non-negative integer. -/
def jsNat : Option Nat → String
  | none => "undefined"
  | some n => toString n

/-- UTF-8 encoding of one Unicode scalar value (what `TextEncoder` emits per
character). -/
def utf8Bytes (c : Nat) : List Nat :=
  if c < 0x80 then [c]
  else if c < 0x800 then [0xC0 + c / 0x40, 0x80 + c % 0x40]
  else if c < 0x10000 then
    [0xE0 + c / 0x1000, 0x80 + c / 0x40 % 0x40, 0x80 + c % 0x40]
  else
    [0xF0 + c / 0x40000, 0x80 + c / 0x1000 % 0x40, 0x80 + c / 0x40 % 0x40,
     0x80 + c % 0x40]

/-- Encoding by `TextEncoder.encode`: UTF-8 bytes of a string. -/
def encodeUtf8 (s : String) : Bytes :=
  (s.data.map (fun c => utf8Bytes c.toNat)).flatten

/-- JS array read `l[i]` for an integer index: the element when
`0 ≤ i < l.length`, otherwise `undefined`. -/
def jsArrayGet {α : Type} (l : List α) (i : Int) : Option α :=
  if h : 0 ≤ i ∧ i.toNat < l.length then some (l.get ⟨i.toNat, h.2⟩) else none

/-- JS array write `l[i] = v` for `0 ≤ i`: in-bounds writes replace the slot,
out-of-bounds writes extend the array with holes.  (`handleChunk` only ever
writes in bounds: the index was just validated against `chunks`, and
`chunkBuffers` is allocated with `chunks.length` slots.) -/
def jsArraySet {α : Type} (l : List (Option α)) (i : Nat) (v : Option α) :
    List (Option α) :=
  if i < l.length then l.set i v
  else l ++ List.replicate (i - l.length) none ++ [v]

/-! ## The `sessions` JS `Map`

Keys are the (possibly-absent) `file_id` strings.  A JS `Map` holds at most
one binding per key; `mapSet` replaces in place, and `mapDelete` removes the
key's binding. -/

/-- The `sessions` map. -/
abbrev Sessions := List (Option String × TransferSession)

/-- Lookup, as `Map.get`. -/
def mapGet {α : Type} : List (Option String × α) → Option String → Option α
  | [], _ => none
  | (k', v) :: rest, k => if k' = k then some v else mapGet rest k

/-- Insertion, as `Map.set`: replace the existing binding in place, else
append. -/
def mapSet {α : Type} :
    List (Option String × α) → Option String → α → List (Option String × α)
  | [], k, v => [(k, v)]
  | (k', v') :: rest, k, v =>
      if k' = k then (k, v) :: rest else (k', v') :: mapSet rest k v

/-- Removal, as `Map.delete`: drop the binding for `k` (a JS map has at most
one). -/
def mapDelete {α : Type} :
    List (Option String × α) → Option String → List (Option String × α)
  | [], _ => []
  | (k', v') :: rest, k =>
      if k' = k then mapDelete rest k else (k', v') :: mapDelete rest k

/-! ## The transfer manager (from `createTransferManager`) -/

/-- The string
`` `${manifest.file_id}:${manifest.total_size}:${manifest.chunks.length}:${chunkHashes}` ``
signed by `computeManifestSignature`, with
`chunkHashes = manifest.chunks.map((chunk) => chunk.hash).join('|')`. -/
def signaturePayload (m : ManifestData) (cs : List ChunkEntry) : String :=
  jsStr m.file_id ++ ":" ++ jsNat m.total_size ++ ":" ++ toString cs.length
    ++ ":" ++ String.intercalate "|" (cs.map ChunkEntry.hash)

/-- The function `computeManifestSignature`: hex digest of the UTF-8 bytes of
`signaturePayload`.  When `manifest.chunks` is absent, the JS code throws a
`TypeError` on `manifest.chunks.map`. -/
def computeManifestSignature (env : CryptoEnv) (m : ManifestData) :
    Except TransferError String :=
  match m.chunks with
  | none => .error .typeError
  | some cs => .ok (env.sha256Hex (encodeUtf8 (signaturePayload m cs)))

/-- The function `handleManifest(data)`: guard `crypto?.subtle`; reject when
`!data.manifest || !data.manifest_signature`; recompute the signature and
reject on disagreement; otherwise store a fresh session under `data.file_id`
with `chunks.length` empty slots.  Returns the map after the mutations that
happened before any throw, plus the error thrown (if any). -/
def handleManifest (env : CryptoEnv) (data : ManifestMsg)
    (sessions : Sessions) : Sessions × Option TransferError :=
  if env.subtleAvailable = false then
    (sessions, some .webCryptoUnavailable)
  else if data.manifest.isNone || !truthyStr data.manifest_signature then
    (sessions, some .manifestMissingFields)
  else
    match data.manifest with
    | none => (sessions, some .manifestMissingFields)
    | some m =>
      match computeManifestSignature env m with
      | .error e => (sessions, some e)
      | .ok signature =>
        if data.manifest_signature ≠ some signature then
          (sessions, some .signatureMismatch)
        else
          match m.chunks with
          | none => (sessions, some .typeError)
          | some cs =>
            (mapSet sessions data.file_id
              { manifest := m
                filename := data.filename
                mimeType := data.mime_type
                chunkBuffers := List.replicate cs.length none
                receivedChunks := 0 }, none)

/-- The function `handleChunk(data)`: look up the session; read
`transfer.manifest.chunks[data.chunk_index]` (absent → `UnexpectedChunkIndex`);
digest the decoded payload; on hash mismatch delete the session and throw;
on success write the slot and increment `receivedChunks` (unconditionally —
the source keeps no per-slot fill state). -/
def handleChunk (env : CryptoEnv) (data : ChunkMsg) (sessions : Sessions) :
    Sessions × Option TransferError :=
  match mapGet sessions data.file_id with
  | none => (sessions, some .noActiveSession)
  | some transfer =>
    match transfer.manifest.chunks with
    | none => (sessions, some .typeError)
    | some cs =>
      match jsArrayGet cs data.chunk_index with
      | none => (sessions, some (.unexpectedChunkIndex data.chunk_index))
      | some expected =>
        let chunkBytes := data.content
        let digest := env.sha256Hex chunkBytes
        if digest ≠ expected.hash then
          (mapDelete sessions data.file_id,
           some (.chunkHashMismatch data.chunk_index))
        else
          (mapSet sessions data.file_id
            { transfer with
              chunkBuffers :=
                jsArraySet transfer.chunkBuffers data.chunk_index.toNat
                  (some chunkBytes)
              receivedChunks := transfer.receivedChunks + 1 }, none)

/-- The bytes of `new Blob(parts)` where every part is either a `Uint8Array`
or an array hole: a hole is the value `undefined`, which the `Blob`
constructor stringifies to `"undefined"` and UTF-8-encodes. -/
def blobBytes (parts : List (Option Bytes)) : Bytes :=
  (parts.map (fun p =>
    match p with
    | some bs => bs
    | none => encodeUtf8 "undefined")).flatten

/-- The delivered name `` transfer.filename || `file-${fileId}` ``. -/
def deliveredFilename (filename : Option String) (fileId : Option String) :
    String :=
  match filename with
  | some s => if s.isEmpty then "file-" ++ jsStr fileId else s
  | none => "file-" ++ jsStr fileId

/-- The function `finalize(fileId)`: unknown session → `UnknownTransfer`; a
`receivedChunks` count differing from `chunks.length` deletes the session
and throws `IncompleteTransfer`; otherwise the blob of `chunkBuffers` is
handed to `onComplete` and the session is deleted. -/
def finalize (fileId : Option String) (sessions : Sessions) :
    Sessions × Option TransferError × Option Delivery :=
  match mapGet sessions fileId with
  | none => (sessions, some .unknownTransfer, none)
  | some transfer =>
    match transfer.manifest.chunks with
    | none => (sessions, some .typeError, none)
    | some cs =>
      if transfer.receivedChunks ≠ cs.length then
        (mapDelete sessions fileId, some .incompleteTransfer, none)
      else
        (mapDelete sessions fileId, none,
         some { file_id := fileId
                bytes := blobBytes transfer.chunkBuffers
                filename := deliveredFilename transfer.filename fileId
                mimeType := transfer.mimeType })

/-- Process a list of chunk messages in order, threading the map and
collecting every thrown error (the caller in `App.jsx` catches each error
with a toast and keeps going, so one failure does not stop later
deliveries). -/
def runChunks (env : CryptoEnv) (msgs : List ChunkMsg) (s : Sessions) :
    Sessions × List TransferError :=
  match msgs with
  | [] => (s, [])
  | d :: rest =>
    let r := handleChunk env d s
    let r2 := runChunks env rest r.1
    (r2.1, r.2.toList ++ r2.2)

/-! ## Derived notions used in the statements -/

/-- Number of distinct filled chunk slots of a session (a slot is filled when
it holds a payload rather than an array hole). -/
def countFilled (t : TransferSession) : Nat :=
  (t.chunkBuffers.filter Option.isSome).length

/-- The buffer array of a session over payloads `bs` in which exactly the
slots with index in `D` are filled (with the true payload for that index). -/
def fillSlots (bs : List Bytes) (D : List Nat) : List (Option Bytes) :=
  (List.range bs.length).map
    (fun j => if j ∈ D then some (bs.getD j []) else none)

/-- The `file_chunk` messages delivering, for each index in `idxs`, the true
payload `bs[i]` of a file split into the chunk payloads `bs`, addressed to
session `fid`. -/
def chunkMsgsFor (fid : Option String) (bs : List Bytes) (idxs : List Nat) :
    List ChunkMsg :=
  idxs.map (fun (i : Nat) =>
    { file_id := fid, chunk_index := Int.ofNat i, content := bs.getD i [] })

/-- A session freshly created by accepting a manifest whose chunk list is
hash-consistent with the payload split `bs`: per-chunk recorded hashes are
the digests of the payloads, all slots empty, count zero. -/
def Accepted (env : CryptoEnv) (bs : List Bytes) (t : TransferSession) :
    Prop :=
  ∃ cs, t.manifest.chunks = some cs ∧
    cs.map ChunkEntry.hash = bs.map env.sha256Hex ∧
    t.chunkBuffers = List.replicate bs.length none ∧
    t.receivedChunks = 0

/-- `Merges l l₁ l₂` holds when `l` is an interleaving of `l₁` and `l₂`
(both orders preserved). -/
inductive Merges {α : Type} : List α → List α → List α → Prop where
  | nil : Merges [] [] []
  | left {x : α} {l l₁ l₂ : List α} :
      Merges l l₁ l₂ → Merges (x :: l) (x :: l₁) l₂
  | right {x : α} {l l₁ l₂ : List α} :
      Merges l l₁ l₂ → Merges (x :: l) l₁ (x :: l₂)

/-- Mid-transfer shape of the session stored under `f`: its manifest chunk
list is `cs`, exactly the indices in `D` are filled (with the true payloads
from `bs`), and the received-count equals the number of ingestions so far. -/
def MidState (f : Option String) (cs : List ChunkEntry) (bs : List Bytes)
    (D : List Nat) (s : Sessions) : Prop :=
  ∃ t, mapGet s f = some t ∧ t.manifest.chunks = some cs ∧
    t.chunkBuffers = fillSlots bs D ∧ t.receivedChunks = D.length

/-- Integrity invariant of a stored session: the manifest's chunk list is
present, the buffer array has one slot per chunk, and every filled slot
holds a payload whose digest equals the manifest's recorded hash for that
index. -/
def SessionWF (env : CryptoEnv) (t : TransferSession) : Prop :=
  ∃ cs, t.manifest.chunks = some cs ∧ t.chunkBuffers.length = cs.length ∧
    ∀ (i : Nat) (b : Bytes), t.chunkBuffers[i]? = some (some b) →
      ∃ e, cs[i]? = some e ∧ env.sha256Hex b = e.hash

/-- Integrity invariant of the whole `sessions` map. -/
def StateWF (env : CryptoEnv) (s : Sessions) : Prop :=
  ∀ k t, mapGet s k = some t → SessionWF env t

/-! ## Concrete instances for witnesses and counterexamples -/

/-- A concrete stand-in digest for witness evaluations (every theorem below
is quantified over the digest function wherever it matters). -/
def demoHash (bs : Bytes) : String := toString bs

/-- A crypto environment with `crypto.subtle` present. -/
def demoEnv : CryptoEnv :=
  { subtleAvailable := true, sha256Hex := demoHash }

/-- A crypto environment in which `crypto?.subtle` is unavailable. -/
def noCryptoEnv : CryptoEnv :=
  { subtleAvailable := false, sha256Hex := demoHash }

/-- A two-chunk manifest whose recorded hashes are the digests of `[7]` and
`[9]`. -/
def c1Manifest : ManifestData :=
  { file_id := some "f", total_size := some 2,
    chunks := some [{ index := 0, hash := demoHash [7] },
                    { index := 1, hash := demoHash [9] }] }

/-- A correctly signed `file_manifest` message for `c1Manifest`. -/
def c1Msg : ManifestMsg :=
  { file_id := some "f", manifest := some c1Manifest,
    manifest_signature := some (demoHash (encodeUtf8
      (signaturePayload c1Manifest
        [{ index := 0, hash := demoHash [7] },
         { index := 1, hash := demoHash [9] }]))),
    filename := some "a.txt", mime_type := some "text/plain" }

/-- The hash-valid delivery of chunk `0` of `c1Manifest`. -/
def c1Chunk : ChunkMsg :=
  { file_id := some "f", chunk_index := 0, content := [7] }

/-- A one-chunk session whose single slot is already filled with the
(hash-valid) payload `[7]` and whose received-count is `1`. -/
def c2Session : TransferSession :=
  { manifest :=
      { file_id := some "f", total_size := some 1,
        chunks := some [{ index := 0, hash := demoHash [7] }] },
    filename := none, mimeType := none,
    chunkBuffers := [some [7]], receivedChunks := 1 }

/-- A two-chunk session in which only chunk `0` has been ingested. -/
def c3Session : TransferSession :=
  { manifest :=
      { file_id := some "f", total_size := some 2,
        chunks := some [{ index := 0, hash := demoHash [7] },
                        { index := 1, hash := demoHash [9] }] },
    filename := none, mimeType := none,
    chunkBuffers := [some [7], none], receivedChunks := 1 }

/-- A structurally deficient manifest: the `file_id` field is absent. -/
def c4Manifest : ManifestData :=
  { file_id := none, total_size := some 5, chunks := some [] }

/-- A `file_manifest` message around `c4Manifest` whose transmitted signature
matches the receiver's recomputation (which interpolates the absent
`file_id` as the string `undefined`). -/
def c4Msg : ManifestMsg :=
  { file_id := some "fid", manifest := some c4Manifest,
    manifest_signature := some (demoHash (encodeUtf8 "undefined:5:0:")),
    filename := none, mime_type := none }

/-- A freshly accepted two-chunk session (payloads `[1]`, `[2]`) under
`file_id` `a`. -/
def c8T1 : TransferSession :=
  { manifest :=
      { file_id := some "a", total_size := some 2,
        chunks := some [{ index := 0, hash := demoHash [1] },
                        { index := 1, hash := demoHash [2] }] },
    filename := none, mimeType := none,
    chunkBuffers := [none, none], receivedChunks := 0 }

/-- A freshly accepted one-chunk session (payload `[3]`) under `file_id`
`b`. -/
def c8T2 : TransferSession :=
  { manifest :=
      { file_id := some "b", total_size := some 1,
        chunks := some [{ index := 0, hash := demoHash [3] }] },
    filename := none, mimeType := none,
    chunkBuffers := [none], receivedChunks := 0 }

/-- Two freshly accepted sessions side by side. -/
def c8S : Sessions := [(some "a", c8T1), (some "b", c8T2)]

/-- An interleaved delivery: file `a`'s chunks in reverse order with file
`b`'s single chunk in between. -/
def c8L : List ChunkMsg :=
  [{ file_id := some "a", chunk_index := Int.ofNat 1, content := [2] },
   { file_id := some "b", chunk_index := Int.ofNat 0, content := [3] },
   { file_id := some "a", chunk_index := Int.ofNat 0, content := [1] }]

/-! ## Lemmas about the map primitives -/

theorem mapGet_mapSet_self {α : Type} (m : List (Option String × α))
    (k : Option String) (v : α) : mapGet (mapSet m k v) k = some v := by
  induction m with
  | nil => simp [mapSet, mapGet]
  | cons p rest ih =>
    obtain ⟨k', v'⟩ := p
    by_cases h : k' = k <;> simp [mapSet, mapGet, h, ih]

theorem mapGet_mapSet_ne {α : Type} (m : List (Option String × α))
    (k k' : Option String) (v : α) (h : k ≠ k') :
    mapGet (mapSet m k v) k' = mapGet m k' := by
  induction m with
  | nil => simp [mapSet, mapGet, h]
  | cons p rest ih =>
    obtain ⟨k0, v0⟩ := p
    by_cases h0 : k0 = k <;> simp [mapSet, mapGet, h0, ih, h]

theorem mapGet_mapDelete_self {α : Type} (m : List (Option String × α))
    (k : Option String) : mapGet (mapDelete m k) k = none := by
  induction m with
  | nil => simp [mapDelete, mapGet]
  | cons p rest ih =>
    obtain ⟨k0, v0⟩ := p
    by_cases h0 : k0 = k <;> simp [mapDelete, mapGet, h0, ih]

theorem mapGet_mapDelete_ne {α : Type} (m : List (Option String × α))
    (k k' : Option String) (h : k ≠ k') :
    mapGet (mapDelete m k) k' = mapGet m k' := by
  induction m with
  | nil => simp [mapDelete, mapGet]
  | cons p rest ih =>
    obtain ⟨k0, v0⟩ := p
    by_cases h0 : k0 = k <;> simp [mapDelete, mapGet, h0, ih, h]

/-! ## Lemmas about the array primitives -/

theorem jsArrayGet_some_elim {α : Type} {l : List α} {i : Int} {a : α}
    (h : jsArrayGet l i = some a) :
    0 ≤ i ∧ i.toNat < l.length ∧ l[i.toNat]? = some a := by
  unfold jsArrayGet at h
  split at h
  · next hc =>
    refine ⟨hc.1, hc.2, ?_⟩
    rw [List.getElem?_eq_getElem hc.2]
    simpa using h
  · exact absurd h (by simp)

theorem jsArrayGet_natCast {α : Type} (l : List α) (i : Nat)
    (h : i < l.length) : jsArrayGet l (i : Int) = some l[i] := by
  unfold jsArrayGet
  rw [dif_pos ⟨Int.natCast_nonneg i, by simpa using h⟩]
  simp

theorem jsArrayGet_none_of_out {α : Type} (l : List α) (i : Int)
    (h : i < 0 ∨ (l.length : Int) ≤ i) : jsArrayGet l i = none := by
  unfold jsArrayGet
  rw [dif_neg]
  rintro ⟨h0, hlt⟩
  rcases h with h | h
  · omega
  · have : (l.length : Int) ≤ i := h
    omega

/-! ## Lemmas about buffer slots -/

theorem fillSlots_length (bs : List Bytes) (D : List Nat) :
    (fillSlots bs D).length = bs.length := by
  simp [fillSlots]

theorem fillSlots_nil (bs : List Bytes) :
    fillSlots bs [] = List.replicate bs.length none := by
  unfold fillSlots
  simp only [List.not_mem_nil, if_neg, ite_false]
  rw [List.map_const', List.length_range]

theorem fillSlots_getElem? (bs : List Bytes) (D : List Nat) (j : Nat)
    (h : j < bs.length) :
    (fillSlots bs D)[j]? =
      some (if j ∈ D then some (bs.getD j []) else none) := by
  simp [fillSlots, List.getElem?_map, List.getElem?_range h]

theorem fillSlots_set (bs : List Bytes) (D : List Nat) (i : Nat)
    (h : i < bs.length) :
    jsArraySet (fillSlots bs D) i (some (bs.getD i [])) =
      fillSlots bs (i :: D) := by
  unfold jsArraySet
  rw [if_pos (by rw [fillSlots_length]; exact h)]
  apply List.ext_getElem?
  intro j
  rw [List.getElem?_set]
  by_cases hij : i = j
  · subst hij
    rw [if_pos rfl, if_pos (by rw [fillSlots_length]; exact h),
      fillSlots_getElem? _ _ _ h]
    simp [List.mem_cons]
  · rw [if_neg hij]
    by_cases hj : j < bs.length
    · rw [fillSlots_getElem? _ _ _ hj, fillSlots_getElem? _ _ _ hj]
      have hji : ¬(j = i) := fun hh => hij hh.symm
      simp [List.mem_cons, hji]
    · rw [List.getElem?_eq_none (by rw [fillSlots_length]; omega),
        List.getElem?_eq_none (by rw [fillSlots_length]; omega)]

theorem fillSlots_full (bs : List Bytes) (D : List Nat)
    (hD : ∀ j, j < bs.length → j ∈ D) : fillSlots bs D = bs.map some := by
  apply List.ext_getElem?
  intro j
  by_cases hj : j < bs.length
  · rw [fillSlots_getElem? _ _ _ hj, if_pos (hD j hj), List.getElem?_map,
      List.getElem?_eq_getElem hj]
    simp [List.getD_eq_getElem?_getD, List.getElem?_eq_getElem hj]
  · rw [List.getElem?_eq_none (by rw [fillSlots_length]; omega),
      List.getElem?_eq_none (by rw [List.length_map]; omega)]

theorem blobBytes_map_some (bs : List Bytes) :
    blobBytes (bs.map some) = bs.flatten := by
  unfold blobBytes
  rw [List.map_map]
  have : ((fun p => match p with
      | some bs => bs
      | none => encodeUtf8 "undefined") ∘ some) = (fun bs : Bytes => bs) :=
    rfl
  rw [this, List.map_id']

/-! ## Integrity-invariant preservation -/

theorem stateWF_mapDelete (env : CryptoEnv) (s : Sessions) (k : Option String)
    (h : StateWF env s) : StateWF env (mapDelete s k) := by
  intro k' t hget
  by_cases hk : k = k'
  · subst hk
    rw [mapGet_mapDelete_self] at hget
    cases hget
  · rw [mapGet_mapDelete_ne s k k' hk] at hget
    exact h k' t hget

theorem handleChunk_stateWF (env : CryptoEnv) (d : ChunkMsg) (s : Sessions)
    (h : StateWF env s) : StateWF env (handleChunk env d s).1 := by
  cases hget : mapGet s d.file_id with
  | none => simpa [handleChunk, hget] using h
  | some t =>
    cases hcs : t.manifest.chunks with
    | none => simpa [handleChunk, hget, hcs] using h
    | some cs =>
      cases hexp : jsArrayGet cs d.chunk_index with
      | none => simpa [handleChunk, hget, hcs, hexp] using h
      | some e =>
        by_cases hdig : env.sha256Hex d.content ≠ e.hash
        · simp only [handleChunk, hget, hcs, hexp, if_pos hdig]
          exact stateWF_mapDelete env s d.file_id h
        · simp only [handleChunk, hget, hcs, hexp, if_neg hdig]
          have hdig' : env.sha256Hex d.content = e.hash := by
            by_contra hc
            exact hdig hc
          obtain ⟨h0, hlt, helem⟩ := jsArrayGet_some_elim hexp
          obtain ⟨cs0, hcs0, hlen0, hslots0⟩ := h d.file_id t hget
          have hcseq : cs0 = cs := by
            rw [hcs0] at hcs
            injection hcs
          subst hcseq
          intro k' t' hget'
          by_cases hk : d.file_id = k'
          · subst hk
            rw [mapGet_mapSet_self] at hget'
            injection hget' with ht'
            subst ht'
            refine ⟨cs0, hcs, ?_, ?_⟩
            · simp only [jsArraySet]
              rw [if_pos (by omega), List.length_set]
              exact hlen0
            · intro j b hj
              simp only [jsArraySet] at hj
              rw [if_pos (by omega)] at hj
              rw [List.getElem?_set] at hj
              by_cases hij : d.chunk_index.toNat = j
              · subst hij
                rw [if_pos rfl, if_pos (by omega)] at hj
                injection hj with hj'
                injection hj' with hj''
                subst hj''
                exact ⟨e, helem, hdig'⟩
              · rw [if_neg hij] at hj
                exact hslots0 j b hj
          · rw [mapGet_mapSet_ne s d.file_id k' _ hk] at hget'
            exact h k' t' hget'

theorem handleManifest_success (env : CryptoEnv) (d : ManifestMsg)
    (s : Sessions) (m : ManifestData) (cs : List ChunkEntry)
    (hsub : env.subtleAvailable = true)
    (hman : d.manifest = some m)
    (hsig : truthyStr d.manifest_signature = true)
    (hcs : m.chunks = some cs)
    (hagree : d.manifest_signature =
      some (env.sha256Hex (encodeUtf8 (signaturePayload m cs)))) :
    handleManifest env d s =
      (mapSet s d.file_id
        { manifest := m, filename := d.filename, mimeType := d.mime_type,
          chunkBuffers := List.replicate cs.length none,
          receivedChunks := 0 }, none) := by
  have hsig' : truthyStr
      (some (env.sha256Hex (encodeUtf8 (signaturePayload m cs)))) = true :=
    hagree ▸ hsig
  simp [handleManifest, hsub, hman, hsig, hsig', computeManifestSignature,
    hcs, hagree]

theorem handleManifest_cases (env : CryptoEnv) (d : ManifestMsg)
    (s : Sessions) :
    (∃ e, handleManifest env d s = (s, some e)) ∨
    (∃ m cs, d.manifest = some m ∧ m.chunks = some cs ∧
      handleManifest env d s =
        (mapSet s d.file_id
          { manifest := m, filename := d.filename, mimeType := d.mime_type,
            chunkBuffers := List.replicate cs.length none,
            receivedChunks := 0 }, none)) := by
  by_cases hsub : env.subtleAvailable = false
  · exact .inl ⟨.webCryptoUnavailable, by simp [handleManifest, hsub]⟩
  · have hsub' : env.subtleAvailable = true := by
      revert hsub
      cases env.subtleAvailable <;> simp
    cases hman : d.manifest with
    | none =>
      exact .inl ⟨.manifestMissingFields, by
        simp [handleManifest, hsub', hman]⟩
    | some m =>
      by_cases hsig : truthyStr d.manifest_signature = true
      · cases hcs : m.chunks with
        | none =>
          exact .inl ⟨.typeError, by
            simp [handleManifest, hsub', hman, hsig,
              computeManifestSignature, hcs]⟩
        | some cs =>
          by_cases hagree : d.manifest_signature =
              some (env.sha256Hex (encodeUtf8 (signaturePayload m cs)))
          · exact .inr ⟨m, cs, rfl,  hcs,
              handleManifest_success env d s m cs hsub' hman hsig hcs hagree⟩
          · exact .inl ⟨.signatureMismatch, by
              simp [handleManifest, hsub', hman, hsig,
                computeManifestSignature, hcs, hagree]⟩
      · refine .inl ⟨.manifestMissingFields, ?_⟩
        have hsig' : truthyStr d.manifest_signature = false := by
          revert hsig
          cases truthyStr d.manifest_signature <;> simp
        simp [handleManifest, hsub', hman, hsig']

theorem handleManifest_error_state (env : CryptoEnv) (d : ManifestMsg)
    (s : Sessions) (h : (handleManifest env d s).2 ≠ none) :
    (handleManifest env d s).1 = s := by
  rcases handleManifest_cases env d s with ⟨e, he⟩ | ⟨m, cs, _, _, he⟩
  · rw [he]
  · rw [he] at h
    simp at h

theorem handleManifest_stateWF (env : CryptoEnv) (d : ManifestMsg)
    (s : Sessions) (h : StateWF env s) :
    StateWF env (handleManifest env d s).1 := by
  rcases handleManifest_cases env d s with ⟨e, he⟩ | ⟨m, cs, hman, hcs, he⟩
  · rw [he]
    exact h
  · rw [he]
    intro k' t' hget'
    by_cases hk : d.file_id = k'
    · subst hk
      rw [mapGet_mapSet_self] at hget'
      injection hget' with ht'
      subst ht'
      refine ⟨cs, hcs, by simp, ?_⟩
      intro j b hj
      rw [List.getElem?_replicate] at hj
      by_cases hjn : j < cs.length
      · rw [if_pos hjn] at hj
        injection hj with hj'
        cases hj'
      · rw [if_neg hjn] at hj
        cases hj
    · rw [mapGet_mapSet_ne s d.file_id k' _ hk] at hget'
      exact h k' t' hget'

/-! ## Order-independent reassembly: the single delivery step -/

theorem handleChunk_fill (env : CryptoEnv) (f : Option String) (s : Sessions)
    (t : TransferSession) (cs : List ChunkEntry) (bs : List Bytes)
    (D : List Nat) (i : Nat)
    (hget : mapGet s f = some t) (hcs : t.manifest.chunks = some cs)
    (hhash : cs.map ChunkEntry.hash = bs.map env.sha256Hex)
    (hbuf : t.chunkBuffers = fillSlots bs D)
    (hi : i < bs.length) :
    handleChunk env ⟨f, Int.ofNat i, bs.getD i []⟩ s =
      (mapSet s f
        { t with chunkBuffers := fillSlots bs (i :: D),
                 receivedChunks := t.receivedChunks + 1 }, none) := by
  have hlen : cs.length = bs.length := by
    simpa using congrArg List.length hhash
  have hic : i < cs.length := by omega
  have hexp : jsArrayGet cs (Int.ofNat i) = some cs[i] := by
    simpa using jsArrayGet_natCast cs i hic
  have hdig : env.sha256Hex (bs.getD i []) = (cs[i]).hash := by
    have h1 := congrArg (fun l => l[i]?) hhash
    simp only [List.getElem?_map, List.getElem?_eq_getElem hic,
      List.getElem?_eq_getElem hi, Option.map_some'] at h1
    injection h1 with h1'
    have h2 : bs.getD i [] = bs[i] := by
      simp [List.getD_eq_getElem?_getD, List.getElem?_eq_getElem hi]
    rw [h2, ← h1']
  simp only [handleChunk, hget, hcs, hexp, hbuf]
  rw [if_neg (not_not_intro hdig)]
  rw [show (Int.ofNat i).toNat = i from rfl, fillSlots_set bs D i hi]

/-! ## Order-independent reassembly: processing an interleaving -/

theorem runChunks_merge (env : CryptoEnv) (f1 f2 : Option String)
    (bs1 bs2 : List Bytes) (cs1 cs2 : List ChunkEntry)
    (hne : f1 ≠ f2)
    (hh1 : cs1.map ChunkEntry.hash = bs1.map env.sha256Hex)
    (hh2 : cs2.map ChunkEntry.hash = bs2.map env.sha256Hex) :
    ∀ (L M1 M2 : List ChunkMsg), Merges L M1 M2 →
    ∀ (L1 L2 D1 D2 : List Nat) (s : Sessions),
      M1 = chunkMsgsFor f1 bs1 L1 → M2 = chunkMsgsFor f2 bs2 L2 →
      (D1 ++ L1).Nodup → (∀ j ∈ D1 ++ L1, j < bs1.length) →
      (D2 ++ L2).Nodup → (∀ j ∈ D2 ++ L2, j < bs2.length) →
      MidState f1 cs1 bs1 D1 s → MidState f2 cs2 bs2 D2 s →
      (runChunks env L s).2 = [] ∧
      MidState f1 cs1 bs1 (L1.reverse ++ D1) (runChunks env L s).1 ∧
      MidState f2 cs2 bs2 (L2.reverse ++ D2) (runChunks env L s).1 := by
  intro L M1 M2 hm
  induction hm with
  | nil =>
    intro L1 L2 D1 D2 s hM1 hM2 hnd1 hlt1 hnd2 hlt2 hs1 hs2
    have hL1 : L1 = [] := by
      cases L1 with
      | nil => rfl
      | cons a tl => simp [chunkMsgsFor] at hM1
    have hL2 : L2 = [] := by
      cases L2 with
      | nil => rfl
      | cons a tl => simp [chunkMsgsFor] at hM2
    subst hL1
    subst hL2
    simpa [runChunks] using ⟨hs1, hs2⟩
  | left hsub ih =>
    rename_i x l l1 l2
    intro L1 L2 D1 D2 s hM1 hM2 hnd1 hlt1 hnd2 hlt2 hs1 hs2
    cases L1 with
    | nil => simp [chunkMsgsFor] at hM1
    | cons i L1' =>
      simp only [chunkMsgsFor, List.map] at hM1
      injection hM1 with hx hl1
      obtain ⟨t, hget, hcs, hbuf, hcnt⟩ := hs1
      have hi : i < bs1.length := hlt1 i (by simp)
      have hstep := handleChunk_fill env f1 s t cs1 bs1 D1 i hget hcs hh1
        hbuf hi
      subst hx
      have hmid1 : MidState f1 cs1 bs1 (i :: D1)
          (mapSet s f1
            { t with chunkBuffers := fillSlots bs1 (i :: D1),
                     receivedChunks := t.receivedChunks + 1 }) :=
        ⟨_, mapGet_mapSet_self _ _ _, hcs, rfl, by simp [hcnt]⟩
      have hmid2 : MidState f2 cs2 bs2 D2
          (mapSet s f1
            { t with chunkBuffers := fillSlots bs1 (i :: D1),
                     receivedChunks := t.receivedChunks + 1 }) := by
        obtain ⟨t2, hget2, hcs2, hbuf2, hcnt2⟩ := hs2
        exact ⟨t2, (mapGet_mapSet_ne s f1 f2 _ hne).trans hget2, hcs2,
          hbuf2, hcnt2⟩
      have hperm : (D1 ++ i :: L1').Perm (i :: (D1 ++ L1')) :=
        List.perm_middle
      have hnd1' : ((i :: D1) ++ L1').Nodup := by
        rw [List.cons_append]
        exact (hperm.nodup_iff).mp hnd1
      have hlt1' : ∀ j ∈ (i :: D1) ++ L1', j < bs1.length := by
        intro j hj
        apply hlt1
        simp only [List.mem_append, List.mem_cons] at hj ⊢
        tauto
      have hrec := ih L1' L2 (i :: D1) D2
        (mapSet s f1
          { t with chunkBuffers := fillSlots bs1 (i :: D1),
                   receivedChunks := t.receivedChunks + 1 })
        hl1 hM2 hnd1' hlt1' hnd2 hlt2 hmid1 hmid2
      refine ⟨?_, ?_, ?_⟩
      · simp only [runChunks, hstep]
        simpa using hrec.1
      · simp only [runChunks, hstep]
        have := hrec.2.1
        simpa [List.reverse_cons, List.append_assoc] using this
      · simp only [runChunks, hstep]
        simpa using hrec.2.2
  | right hsub ih =>
    rename_i x l l1 l2
    intro L1 L2 D1 D2 s hM1 hM2 hnd1 hlt1 hnd2 hlt2 hs1 hs2
    cases L2 with
    | nil => simp [chunkMsgsFor] at hM2
    | cons i L2' =>
      simp only [chunkMsgsFor, List.map] at hM2
      injection hM2 with hx hl2
      obtain ⟨t, hget, hcs, hbuf, hcnt⟩ := hs2
      have hi : i < bs2.length := hlt2 i (by simp)
      have hstep := handleChunk_fill env f2 s t cs2 bs2 D2 i hget hcs hh2
        hbuf hi
      subst hx
      have hmid2 : MidState f2 cs2 bs2 (i :: D2)
          (mapSet s f2
            { t with chunkBuffers := fillSlots bs2 (i :: D2),
                     receivedChunks := t.receivedChunks + 1 }) :=
        ⟨_, mapGet_mapSet_self _ _ _, hcs, rfl, by simp [hcnt]⟩
      have hmid1 : MidState f1 cs1 bs1 D1
          (mapSet s f2
            { t with chunkBuffers := fillSlots bs2 (i :: D2),
                     receivedChunks := t.receivedChunks + 1 }) := by
        obtain ⟨t1, hget1, hcs1, hbuf1, hcnt1⟩ := hs1
        exact ⟨t1, (mapGet_mapSet_ne s f2 f1 _ (Ne.symm hne)).trans hget1,
          hcs1, hbuf1, hcnt1⟩
      have hperm : (D2 ++ i :: L2').Perm (i :: (D2 ++ L2')) :=
        List.perm_middle
      have hnd2' : ((i :: D2) ++ L2').Nodup := by
        rw [List.cons_append]
        exact (hperm.nodup_iff).mp hnd2
      have hlt2' : ∀ j ∈ (i :: D2) ++ L2', j < bs2.length := by
        intro j hj
        apply hlt2
        simp only [List.mem_append, List.mem_cons] at hj ⊢
        tauto
      have hrec := ih L1 L2' D1 (i :: D2)
        (mapSet s f2
          { t with chunkBuffers := fillSlots bs2 (i :: D2),
                   receivedChunks := t.receivedChunks + 1 })
        hM1 hl2 hnd1 hlt1 hnd2' hlt2' hmid1 hmid2
      refine ⟨?_, ?_, ?_⟩
      · simp only [runChunks, hstep]
        simpa using hrec.1
      · simp only [runChunks, hstep]
        simpa using hrec.2.1
      · simp only [runChunks, hstep]
        have := hrec.2.2
        simpa [List.reverse_cons, List.append_assoc] using this

/-! ## The specification properties -/

/-- C1: the never-deliver-partial-content invariant fails on the code.  After
accepting the correctly signed two-chunk manifest `c1Msg` and ingesting the
hash-valid chunk `0` twice (chunk `1` never arrives), `receivedChunks`
reaches `2 = chunks.length`, so `finalize` succeeds even though slot `1` is
still an empty hole, and the bytes handed to the deliver-to-user sink are
the payload of chunk `0` followed by the UTF-8 bytes of the string
`undefined` (the `Blob` constructor's rendering of the hole) — partial,
corrupted content is delivered. -/
theorem c1_duplicate_chunk_finalizes_partial_content :
    (handleManifest demoEnv c1Msg []).2 = none ∧
    (runChunks demoEnv [c1Chunk, c1Chunk]
      (handleManifest demoEnv c1Msg []).1).2 = [] ∧
    ((mapGet (runChunks demoEnv [c1Chunk, c1Chunk]
        (handleManifest demoEnv c1Msg []).1).1 (some "f")).bind
      (fun t => t.chunkBuffers[1]?)) = some none ∧
    (finalize (some "f") (runChunks demoEnv [c1Chunk, c1Chunk]
      (handleManifest demoEnv c1Msg []).1).1).2.1 = none ∧
    (finalize (some "f") (runChunks demoEnv [c1Chunk, c1Chunk]
      (handleManifest demoEnv c1Msg []).1).1).2.2 =
      some { file_id := some "f", bytes := [7] ++ encodeUtf8 "undefined",
             filename := "a.txt", mimeType := some "text/plain" } := by
  decide

/-- C2 (counterexample): duplicate delivery is not idempotent.  Redelivering
the already-filled index `0` of `c2Session` (with the matching payload)
succeeds and bumps `receivedChunks` to `2`, while the number of distinct
filled slots stays `1`. -/
theorem c2_duplicate_delivery_double_counts :
    (handleChunk demoEnv
      { file_id := some "f", chunk_index := 0, content := [7] }
      [(some "f", c2Session)]).2 = none ∧
    (mapGet (handleChunk demoEnv
      { file_id := some "f", chunk_index := 0, content := [7] }
      [(some "f", c2Session)]).1 (some "f")).map
        TransferSession.receivedChunks = some 2 ∧
    (mapGet (handleChunk demoEnv
      { file_id := some "f", chunk_index := 0, content := [7] }
      [(some "f", c2Session)]).1 (some "f")).map countFilled = some 1 := by
  decide

/-- C2 (amended): redelivering an already-filled index with a matching hash
overwrites the slot in place but increments `receivedChunks` again — the
count tracks successful ingestions, not distinct filled slots. -/
theorem c2_duplicate_overwrites_but_increments (env : CryptoEnv)
    (data : ChunkMsg) (s : Sessions) (t : TransferSession)
    (cs : List ChunkEntry) (e : ChunkEntry) (b0 : Bytes)
    (hget : mapGet s data.file_id = some t)
    (hcs : t.manifest.chunks = some cs)
    (hexp : jsArrayGet cs data.chunk_index = some e)
    (hdig : env.sha256Hex data.content = e.hash)
    (hfilled : t.chunkBuffers[data.chunk_index.toNat]? = some (some b0)) :
    handleChunk env data s =
      (mapSet s data.file_id
        { t with
          chunkBuffers := jsArraySet t.chunkBuffers data.chunk_index.toNat
            (some data.content)
          receivedChunks := t.receivedChunks + 1 }, none) ∧
    (mapGet (handleChunk env data s).1 data.file_id).map
      TransferSession.receivedChunks = some (t.receivedChunks + 1) ∧
    ((mapGet (handleChunk env data s).1 data.file_id).bind
      (fun t' => t'.chunkBuffers[data.chunk_index.toNat]?)) =
        some (some data.content) := by
  have hmain : handleChunk env data s =
      (mapSet s data.file_id
        { t with
          chunkBuffers := jsArraySet t.chunkBuffers data.chunk_index.toNat
            (some data.content)
          receivedChunks := t.receivedChunks + 1 }, none) := by
    simp only [handleChunk, hget, hcs, hexp]
    rw [if_neg (not_not_intro hdig)]
  have hlt : data.chunk_index.toNat < t.chunkBuffers.length := by
    rcases List.getElem?_eq_some.mp hfilled with ⟨hh, _⟩
    exact hh
  refine ⟨hmain, ?_, ?_⟩
  · rw [hmain]
    simp [mapGet_mapSet_self]
  · rw [hmain]
    simp only [mapGet_mapSet_self, Option.bind_some, Option.some_bind]
    simp only [jsArraySet, if_pos hlt]
    rw [List.getElem?_set]
    simp [hlt]

/-- C2 (witness for the amended theorem): the concrete redelivery of the
already-filled slot of `c2Session`. -/
theorem c2_duplicate_overwrites_but_increments_witness :
    (mapGet (handleChunk demoEnv
      { file_id := some "f", chunk_index := 0, content := [7] }
      [(some "f", c2Session)]).1 (some "f")).map
        TransferSession.receivedChunks = some (1 + 1) := by
  exact (c2_duplicate_overwrites_but_increments demoEnv
    { file_id := some "f", chunk_index := 0, content := [7] }
    [(some "f", c2Session)] c2Session
    [{ index := 0, hash := demoHash [7] }] { index := 0, hash := demoHash [7] }
    [7] (by decide) (by decide) (by decide) (by decide) (by decide)).2.1

/-- C3 (counterexample): a finalize over the two-chunk session `c3Session`
with only one chunk ingested fails with the incomplete-transfer error but
also deletes the session, so the session does not remain in the map and a
second finalize fails with the unknown-transfer error instead of
succeeding. -/
theorem c3_incomplete_finalize_destroys_session :
    (finalize (some "f") [(some "f", c3Session)]).2.1 =
      some .incompleteTransfer ∧
    (finalize (some "f") [(some "f", c3Session)]).1 = [] ∧
    mapGet (finalize (some "f") [(some "f", c3Session)]).1 (some "f") =
      none ∧
    (finalize (some "f")
      (finalize (some "f") [(some "f", c3Session)]).1).2.1 =
        some .unknownTransfer := by
  decide

/-- C3 (amended): finalizing a session whose received-count differs from the
chunk count fails with `IncompleteTransfer` and removes the session from the
map; afterwards, a late chunk for that `file_id` fails with
`NoActiveSession` and a second finalize fails with `UnknownTransfer`. -/
theorem c3_incomplete_finalize_deletes_and_blocks (fid : Option String)
    (s : Sessions) (t : TransferSession) (cs : List ChunkEntry)
    (hget : mapGet s fid = some t)
    (hcs : t.manifest.chunks = some cs)
    (hcount : t.receivedChunks ≠ cs.length) :
    finalize fid s = (mapDelete s fid, some .incompleteTransfer, none) ∧
    mapGet (mapDelete s fid) fid = none ∧
    (∀ (env : CryptoEnv) (d : ChunkMsg), d.file_id = fid →
      handleChunk env d (mapDelete s fid) =
        (mapDelete s fid, some .noActiveSession)) ∧
    finalize fid (mapDelete s fid) =
      (mapDelete s fid, some .unknownTransfer, none) := by
  refine ⟨?_, mapGet_mapDelete_self s fid, ?_, ?_⟩
  · simp [finalize, hget, hcs, hcount]
  · intro env d hd
    simp [handleChunk, hd, mapGet_mapDelete_self]
  · simp [finalize, mapGet_mapDelete_self]

/-- C3 (witness for the amended theorem): the concrete incomplete finalize
of `c3Session`. -/
theorem c3_incomplete_finalize_deletes_and_blocks_witness :
    finalize (some "f") [(some "f", c3Session)] =
      (mapDelete [(some "f", c3Session)] (some "f"),
        some .incompleteTransfer, none) :=
  (c3_incomplete_finalize_deletes_and_blocks (some "f")
    [(some "f", c3Session)] c3Session
    [{ index := 0, hash := demoHash [7] }, { index := 1, hash := demoHash [9] }]
    (by decide) (by decide) (by decide)).1

/-- C4 (counterexample): a manifest payload whose manifest lacks `file_id`
is not rejected at all — the signature is recomputed over the interpolated
string `undefined`, it matches the transmitted one, and a session is
created. -/
theorem c4_missing_file_id_accepted :
    c4Manifest.file_id = none ∧
    (handleManifest demoEnv c4Msg []).2 = none ∧
    mapGet (handleManifest demoEnv c4Msg []).1 (some "fid") =
      some { manifest := c4Manifest, filename := none, mimeType := none,
             chunkBuffers := [], receivedChunks := 0 } := by
  decide

/-- C4 (amended): the only structural check performed before signature
computation is `!data.manifest || !data.manifest_signature` (rejected with
the missing-fields error, no session created); a manifest without `chunks`
fails with a `TypeError` raised during signature computation (no session
created); a manifest without `file_id` is not rejected — acceptance
succeeds whenever the transmitted signature matches the recomputation over
the `undefined` interpolation. -/
theorem c4_structural_rejection_scope :
    (∀ (env : CryptoEnv) (d : ManifestMsg) (s : Sessions),
      env.subtleAvailable = true →
      (d.manifest = none ∨ truthyStr d.manifest_signature = false) →
      handleManifest env d s = (s, some .manifestMissingFields)) ∧
    (∀ (env : CryptoEnv) (d : ManifestMsg) (s : Sessions) (m : ManifestData),
      env.subtleAvailable = true → d.manifest = some m →
      truthyStr d.manifest_signature = true → m.chunks = none →
      handleManifest env d s = (s, some .typeError)) ∧
    (∀ (env : CryptoEnv) (d : ManifestMsg) (s : Sessions) (m : ManifestData)
        (cs : List ChunkEntry),
      env.subtleAvailable = true → d.manifest = some m → m.chunks = some cs →
      d.manifest_signature =
        some (env.sha256Hex (encodeUtf8 (signaturePayload m cs))) →
      truthyStr d.manifest_signature = true →
      (handleManifest env d s).2 = none) := by
  refine ⟨?_, ?_, ?_⟩
  · intro env d s hsub hmiss
    rcases hmiss with hman | hsig
    · simp [handleManifest, hsub, hman]
    · simp [handleManifest, hsub, hsig]
  · intro env d s m hsub hman hsig hcs
    simp [handleManifest, hsub, hman, hsig, computeManifestSignature, hcs]
  · intro env d s m cs hsub hman hcs hagree hts
    rw [handleManifest_success env d s m cs hsub hman hts hcs hagree]

/-- C4 (witness for the amended theorem): one concrete run of each of the
three behaviours. -/
theorem c4_structural_rejection_scope_witness :
    handleManifest demoEnv
      { file_id := some "x", manifest := none,
        manifest_signature := some "sig", filename := none,
        mime_type := none } [] = ([], some .manifestMissingFields) ∧
    handleManifest demoEnv
      { file_id := some "x",
        manifest :=
          some { file_id := some "x", total_size := some 1, chunks := none },
        manifest_signature := some "sig", filename := none,
        mime_type := none } [] = ([], some .typeError) ∧
    (handleManifest demoEnv c4Msg []).2 = none := by
  refine ⟨?_, ?_, ?_⟩
  · exact c4_structural_rejection_scope.1 demoEnv _ [] rfl (.inl rfl)
  · exact c4_structural_rejection_scope.2.1 demoEnv _ [] _ rfl rfl
      (by decide) rfl
  · exact c4_structural_rejection_scope.2.2 demoEnv c4Msg [] c4Manifest []
      rfl rfl rfl (by decide) (by decide)

/-- C5: for every well-formed manifest, the signature is the digest of the
deterministic concatenation of `file_id`, `total_size`, the chunk count and
the `|`-joined chunk hashes, and it is a pure function of exactly those
fields: any two manifests agreeing on them (even with different per-entry
`index` fields) receive the same signature. -/
theorem c5_signature_is_pure_digest_of_content (env : CryptoEnv)
    (m₁ : ManifestData) (cs₁ : List ChunkEntry)
    (h₁ : m₁.chunks = some cs₁) :
    computeManifestSignature env m₁ =
      .ok (env.sha256Hex (encodeUtf8
        (jsStr m₁.file_id ++ ":" ++ jsNat m₁.total_size ++ ":"
          ++ toString cs₁.length ++ ":"
          ++ String.intercalate "|" (cs₁.map ChunkEntry.hash)))) ∧
    (∀ (m₂ : ManifestData) (cs₂ : List ChunkEntry), m₂.chunks = some cs₂ →
      m₂.file_id = m₁.file_id → m₂.total_size = m₁.total_size →
      cs₂.map ChunkEntry.hash = cs₁.map ChunkEntry.hash →
      computeManifestSignature env m₂ = computeManifestSignature env m₁) := by
  constructor
  · simp [computeManifestSignature, h₁, signaturePayload]
  · intro m₂ cs₂ h₂ hfid hsz hh
    have hlen : cs₂.length = cs₁.length := by
      simpa using congrArg List.length hh
    simp [computeManifestSignature, h₁, h₂, signaturePayload, hfid, hsz, hh,
      hlen]

/-- C5 (witness): two concrete one-chunk manifests differing only in the
chunk entry's `index` field receive the same signature. -/
theorem c5_signature_is_pure_digest_of_content_witness :
    computeManifestSignature demoEnv
      { file_id := some "f", total_size := some 3,
        chunks := some [{ index := 7, hash := "h" }] } =
    computeManifestSignature demoEnv
      { file_id := some "f", total_size := some 3,
        chunks := some [{ index := 0, hash := "h" }] } :=
  (c5_signature_is_pure_digest_of_content demoEnv
    { file_id := some "f", total_size := some 3,
      chunks := some [{ index := 0, hash := "h" }] }
    [{ index := 0, hash := "h" }] rfl).2
    { file_id := some "f", total_size := some 3,
      chunks := some [{ index := 7, hash := "h" }] }
    [{ index := 7, hash := "h" }] rfl rfl rfl rfl

/-- C6: under a well-formed payload (crypto available, manifest and a
non-empty signature string present, chunk list present), a recomputed
signature that differs from the transmitted one makes `handleManifest` fail
with the signature-mismatch error and leave the sessions map untouched (so
a chunk for a fresh `file_id` still finds no session), and acceptance
succeeds exactly when the recomputed signature equals the transmitted
one. -/
theorem c6_signature_gate (env : CryptoEnv) (data : ManifestMsg)
    (s : Sessions) (m : ManifestData) (cs : List ChunkEntry) (sig : String)
    (hsub : env.subtleAvailable = true)
    (hman : data.manifest = some m)
    (hcs : m.chunks = some cs)
    (hsig : data.manifest_signature = some sig)
    (hne : sig ≠ "") :
    (env.sha256Hex (encodeUtf8 (signaturePayload m cs)) ≠ sig →
      handleManifest env data s = (s, some .signatureMismatch) ∧
      (mapGet s data.file_id = none → ∀ d : ChunkMsg,
        d.file_id = data.file_id →
        handleChunk env d s = (s, some .noActiveSession))) ∧
    ((handleManifest env data s).2 = none ↔
      env.sha256Hex (encodeUtf8 (signaturePayload m cs)) = sig) := by
  have hts : truthyStr data.manifest_signature = true := by
    rw [hsig]
    have : sig.isEmpty = false := by
      rcases hb : sig.isEmpty with _ | _
      · rfl
      · exact absurd ((String.isEmpty_iff sig).mp hb) hne
    simp [truthyStr, this]
  by_cases heq : env.sha256Hex (encodeUtf8 (signaturePayload m cs)) = sig
  · constructor
    · intro hcontra
      exact absurd heq hcontra
    · rw [handleManifest_success env data s m cs hsub hman hts hcs
        (by rw [hsig, heq])]
      simp [heq]
  · have hdisagree : data.manifest_signature ≠
        some (env.sha256Hex (encodeUtf8 (signaturePayload m cs))) := by
      rw [hsig]
      intro hc
      injection hc with hc'
      exact heq hc'.symm
    have hmis : handleManifest env data s = (s, some .signatureMismatch) := by
      simp [handleManifest, hsub, hman, hts, computeManifestSignature, hcs,
        hdisagree]
    constructor
    · intro _
      refine ⟨hmis, ?_⟩
      intro hnosess d hd
      simp [handleChunk, hd, hnosess]
    · rw [hmis]
      simp [heq]

/-- C6 (witness): a concrete two-chunk payload whose transmitted signature
string disagrees with the recomputation is rejected with the
signature-mismatch error, leaving the empty map empty. -/
theorem c6_signature_gate_witness :
    handleManifest demoEnv
      { file_id := some "f", manifest := some c1Manifest,
        manifest_signature := some "bad", filename := none,
        mime_type := none } [] = ([], some .signatureMismatch) :=
  ((c6_signature_gate demoEnv
    { file_id := some "f", manifest := some c1Manifest,
      manifest_signature := some "bad", filename := none,
      mime_type := none } [] c1Manifest
    [{ index := 0, hash := demoHash [7] }, { index := 1, hash := demoHash [9] }]
    "bad" rfl rfl (by decide) rfl (by decide)).1 (by decide)).1

/-- C7: ingesting a chunk at an in-range index whose digest differs from the
manifest's recorded hash deletes the session and signals the hash-mismatch
error; the `file_id` is then absent from the map, every subsequent chunk for
it fails with `NoActiveSession`, and the integrity invariant (every stored
payload hashes to its recorded manifest hash) is preserved — both by this
deletion and by every `handleChunk` step — so no mismatching payload is
ever stored. -/
theorem c7_hash_mismatch_discards_session (env : CryptoEnv)
    (data : ChunkMsg) (s : Sessions) (t : TransferSession)
    (cs : List ChunkEntry) (e : ChunkEntry)
    (hget : mapGet s data.file_id = some t)
    (hcs : t.manifest.chunks = some cs)
    (hexp : jsArrayGet cs data.chunk_index = some e)
    (hdig : env.sha256Hex data.content ≠ e.hash) :
    handleChunk env data s =
      (mapDelete s data.file_id,
        some (.chunkHashMismatch data.chunk_index)) ∧
    mapGet (mapDelete s data.file_id) data.file_id = none ∧
    (∀ d2 : ChunkMsg, d2.file_id = data.file_id →
      handleChunk env d2 (mapDelete s data.file_id) =
        (mapDelete s data.file_id, some .noActiveSession)) ∧
    (StateWF env s → StateWF env (mapDelete s data.file_id)) ∧
    (∀ (d0 : ChunkMsg) (s0 : Sessions), StateWF env s0 →
      StateWF env (handleChunk env d0 s0).1) := by
  refine ⟨?_, mapGet_mapDelete_self s data.file_id, ?_, ?_, ?_⟩
  · simp [handleChunk, hget, hcs, hexp, hdig]
  · intro d2 hd2
    simp [handleChunk, hd2, mapGet_mapDelete_self]
  · exact stateWF_mapDelete env s data.file_id
  · exact fun d0 s0 h0 => handleChunk_stateWF env d0 s0 h0

/-- C7 (witness): the concrete delivery of a wrong payload to index `0` of
`c2Session`'s manifest (recorded hash is the digest of `[7]`, delivered
payload is `[8]`). -/
theorem c7_hash_mismatch_discards_session_witness :
    handleChunk demoEnv
      { file_id := some "f", chunk_index := 0, content := [8] }
      [(some "f", c2Session)] =
      (mapDelete [(some "f", c2Session)] (some "f"),
        some (.chunkHashMismatch 0)) :=
  (c7_hash_mismatch_discards_session demoEnv
    { file_id := some "f", chunk_index := 0, content := [8] }
    [(some "f", c2Session)] c2Session
    [{ index := 0, hash := demoHash [7] }] { index := 0, hash := demoHash [7] }
    (by decide) (by decide) (by decide) (by decide)).1

/-- C8: for two accepted sessions under distinct `file_id`s over
hash-consistent chunk splits `bs1` and `bs2`, delivering each file's true
chunks exactly once in any order (`L1`, `L2` arbitrary permutations of the
index ranges — reverse order included) and under any interleaving of the
two delivery streams, every ingestion succeeds, and finalizing each file
hands the deliver-to-user sink exactly the original byte sequence (the
concatenation of its chunk payloads in index order). -/
theorem c8_any_order_interleaved_reassembly (env : CryptoEnv)
    (f1 f2 : Option String) (bs1 bs2 : List Bytes)
    (t1 t2 : TransferSession) (s0 : Sessions) (L1 L2 : List Nat)
    (L : List ChunkMsg)
    (hne : f1 ≠ f2)
    (hg1 : mapGet s0 f1 = some t1) (ha1 : Accepted env bs1 t1)
    (hg2 : mapGet s0 f2 = some t2) (ha2 : Accepted env bs2 t2)
    (hp1 : L1.Perm (List.range bs1.length))
    (hp2 : L2.Perm (List.range bs2.length))
    (hm : Merges L (chunkMsgsFor f1 bs1 L1) (chunkMsgsFor f2 bs2 L2)) :
    (runChunks env L s0).2 = [] ∧
    ∃ d1 d2,
      finalize f1 (runChunks env L s0).1 =
        (mapDelete (runChunks env L s0).1 f1, none, some d1) ∧
      d1.bytes = bs1.flatten ∧
      finalize f2 (mapDelete (runChunks env L s0).1 f1) =
        (mapDelete (mapDelete (runChunks env L s0).1 f1) f2, none,
          some d2) ∧
      d2.bytes = bs2.flatten := by
  obtain ⟨cs1, hcs1, hh1, hbuf1, hcnt1⟩ := ha1
  obtain ⟨cs2, hcs2, hh2, hbuf2, hcnt2⟩ := ha2
  have hmid1 : MidState f1 cs1 bs1 [] s0 :=
    ⟨t1, hg1, hcs1, by rw [hbuf1, fillSlots_nil], by simp [hcnt1]⟩
  have hmid2 : MidState f2 cs2 bs2 [] s0 :=
    ⟨t2, hg2, hcs2, by rw [hbuf2, fillSlots_nil], by simp [hcnt2]⟩
  have hnd1 : (([] : List Nat) ++ L1).Nodup := by
    simpa using hp1.nodup_iff.mpr (List.nodup_range _)
  have hnd2 : (([] : List Nat) ++ L2).Nodup := by
    simpa using hp2.nodup_iff.mpr (List.nodup_range _)
  have hlt1 : ∀ j ∈ ([] : List Nat) ++ L1, j < bs1.length := by
    intro j hj
    simp only [List.nil_append] at hj
    simpa [List.mem_range] using hp1.mem_iff.mp hj
  have hlt2 : ∀ j ∈ ([] : List Nat) ++ L2, j < bs2.length := by
    intro j hj
    simp only [List.nil_append] at hj
    simpa [List.mem_range] using hp2.mem_iff.mp hj
  obtain ⟨herr, hm1, hm2⟩ :=
    runChunks_merge env f1 f2 bs1 bs2 cs1 cs2 hne hh1 hh2 L _ _ hm
      L1 L2 [] [] s0 rfl rfl hnd1 hlt1 hnd2 hlt2 hmid1 hmid2
  refine ⟨herr, ?_⟩
  obtain ⟨t1', hget1', hcs1', hbuf1', hcnt1'⟩ := hm1
  obtain ⟨t2', hget2', hcs2', hbuf2', hcnt2'⟩ := hm2
  have hlen1 : cs1.length = bs1.length := by
    simpa using congrArg List.length hh1
  have hlen2 : cs2.length = bs2.length := by
    simpa using congrArg List.length hh2
  have hfull1 : ∀ j, j < bs1.length → j ∈ L1.reverse ++ ([] : List Nat) := by
    intro j hj
    simp only [List.append_nil, List.mem_reverse]
    exact hp1.mem_iff.mpr (by simpa [List.mem_range] using hj)
  have hfull2 : ∀ j, j < bs2.length → j ∈ L2.reverse ++ ([] : List Nat) := by
    intro j hj
    simp only [List.append_nil, List.mem_reverse]
    exact hp2.mem_iff.mpr (by simpa [List.mem_range] using hj)
  have hbfull1 : t1'.chunkBuffers = bs1.map some := by
    rw [hbuf1', fillSlots_full bs1 _ hfull1]
  have hbfull2 : t2'.chunkBuffers = bs2.map some := by
    rw [hbuf2', fillSlots_full bs2 _ hfull2]
  have hcount1 : t1'.receivedChunks = cs1.length := by
    have hl : (L1.reverse ++ ([] : List Nat)).length = bs1.length := by
      simpa using hp1.length_eq
    rw [hcnt1', hl]
    exact hlen1.symm
  have hcount2 : t2'.receivedChunks = cs2.length := by
    have hl : (L2.reverse ++ ([] : List Nat)).length = bs2.length := by
      simpa using hp2.length_eq
    rw [hcnt2', hl]
    exact hlen2.symm
  have hfin1 : finalize f1 (runChunks env L s0).1 =
      (mapDelete (runChunks env L s0).1 f1, none,
       some { file_id := f1, bytes := blobBytes t1'.chunkBuffers,
              filename := deliveredFilename t1'.filename f1,
              mimeType := t1'.mimeType }) := by
    simp [finalize, hget1', hcs1', hcount1]
  have hget2'' : mapGet (mapDelete (runChunks env L s0).1 f1) f2 =
      some t2' := by
    rw [mapGet_mapDelete_ne _ f1 f2 hne]
    exact hget2'
  have hfin2 : finalize f2 (mapDelete (runChunks env L s0).1 f1) =
      (mapDelete (mapDelete (runChunks env L s0).1 f1) f2, none,
       some { file_id := f2, bytes := blobBytes t2'.chunkBuffers,
              filename := deliveredFilename t2'.filename f2,
              mimeType := t2'.mimeType }) := by
    simp [finalize, hget2'', hcs2', hcount2]
  refine ⟨_, _, hfin1, ?_, hfin2, ?_⟩
  · show blobBytes t1'.chunkBuffers = bs1.flatten
    rw [hbfull1, blobBytes_map_some]
  · show blobBytes t2'.chunkBuffers = bs2.flatten
    rw [hbfull2, blobBytes_map_some]

/-- C8 (witness): the concrete interleaved, reverse-order delivery `c8L`
into the two fresh sessions of `c8S` reassembles both original byte
sequences. -/
theorem c8_any_order_interleaved_reassembly_witness :
    (runChunks demoEnv c8L c8S).2 = [] ∧
    ∃ d1 d2,
      finalize (some "a") (runChunks demoEnv c8L c8S).1 =
        (mapDelete (runChunks demoEnv c8L c8S).1 (some "a"), none,
          some d1) ∧
      d1.bytes = [[1], [2]].flatten ∧
      finalize (some "b")
        (mapDelete (runChunks demoEnv c8L c8S).1 (some "a")) =
        (mapDelete (mapDelete (runChunks demoEnv c8L c8S).1 (some "a"))
          (some "b"), none, some d2) ∧
      d2.bytes = [[3]].flatten :=
  c8_any_order_interleaved_reassembly demoEnv (some "a") (some "b")
    [[1], [2]] [[3]] c8T1 c8T2 c8S [1, 0] [0] c8L
    (by decide) (by decide) ⟨_, rfl, by decide, by decide, rfl⟩
    (by decide) ⟨_, rfl, by decide, by decide, rfl⟩
    (by decide) (by decide)
    (by
      show Merges c8L _ _
      simp only [c8L, chunkMsgsFor, List.map]
      exact Merges.left (Merges.right (Merges.left Merges.nil)))

/-- C9: a chunk addressed to an index outside `[0, chunks.length)` (negative
or too large) fails with `UnexpectedChunkIndex` and leaves the whole
sessions map — in particular the session's slots and received-count —
unchanged. -/
theorem c9_out_of_range_index_is_harmless (env : CryptoEnv)
    (data : ChunkMsg) (s : Sessions) (t : TransferSession)
    (cs : List ChunkEntry)
    (hget : mapGet s data.file_id = some t)
    (hcs : t.manifest.chunks = some cs)
    (hout : data.chunk_index < 0 ∨ (cs.length : Int) ≤ data.chunk_index) :
    handleChunk env data s =
      (s, some (.unexpectedChunkIndex data.chunk_index)) ∧
    mapGet (handleChunk env data s).1 data.file_id = some t := by
  have hnone : jsArrayGet cs data.chunk_index = none :=
    jsArrayGet_none_of_out cs data.chunk_index hout
  have hmain : handleChunk env data s =
      (s, some (.unexpectedChunkIndex data.chunk_index)) := by
    simp [handleChunk, hget, hcs, hnone]
  exact ⟨hmain, by rw [hmain]; exact hget⟩

/-- C9 (witness): concrete out-of-range deliveries, index `5` against the
two-chunk session `c3Session`. -/
theorem c9_out_of_range_index_is_harmless_witness :
    handleChunk demoEnv
      { file_id := some "f", chunk_index := 5, content := [7] }
      [(some "f", c3Session)] =
      ([(some "f", c3Session)], some (.unexpectedChunkIndex 5)) :=
  (c9_out_of_range_index_is_harmless demoEnv
    { file_id := some "f", chunk_index := 5, content := [7] }
    [(some "f", c3Session)] c3Session
    [{ index := 0, hash := demoHash [7] }, { index := 1, hash := demoHash [9] }]
    (by decide) (by decide) (by decide)).1

/-- C10: whenever `handleManifest` fails — crypto primitive unavailable,
missing manifest or falsy signature, missing chunk list, or signature
mismatch — the sessions map is returned unchanged (so an existing session
for the same `file_id` survives); and whenever it succeeds, the map is
exactly the old map with the key `data.file_id` bound (replacing any prior
binding) to the freshly allocated session. -/
theorem c10_manifest_failure_frame (env : CryptoEnv) (d : ManifestMsg)
    (s : Sessions) :
    ((handleManifest env d s).2 ≠ none → (handleManifest env d s).1 = s) ∧
    (∀ (m : ManifestData) (cs : List ChunkEntry),
      d.manifest = some m → m.chunks = some cs →
      (handleManifest env d s).2 = none →
      (handleManifest env d s).1 =
        mapSet s d.file_id
          { manifest := m, filename := d.filename, mimeType := d.mime_type,
            chunkBuffers := List.replicate cs.length none,
            receivedChunks := 0 } ∧
      mapGet (handleManifest env d s).1 d.file_id =
        some { manifest := m, filename := d.filename,
               mimeType := d.mime_type,
               chunkBuffers := List.replicate cs.length none,
               receivedChunks := 0 }) := by
  constructor
  · exact handleManifest_error_state env d s
  · intro m cs hman hcs hok
    rcases handleManifest_cases env d s with ⟨e, he⟩ | ⟨m', cs', hman', hcs', he⟩
    · rw [he] at hok
      simp at hok
    · have hm : m' = m := by
        rw [hman] at hman'
        injection hman' with h
        exact h.symm
      subst hm
      have hc : cs' = cs := by
        rw [hcs] at hcs'
        injection hcs' with h
        exact h.symm
      subst hc
      rw [he]
      exact ⟨rfl, mapGet_mapSet_self _ _ _⟩

/-- C10 (witness): a failed manifest (crypto unavailable) leaves a
non-empty map unchanged, and a successful one binds the fresh session. -/
theorem c10_manifest_failure_frame_witness :
    (handleManifest noCryptoEnv c1Msg [(some "f", c2Session)]).1 =
      [(some "f", c2Session)] ∧
    mapGet (handleManifest demoEnv c4Msg []).1 c4Msg.file_id =
      some { manifest := c4Manifest, filename := none, mimeType := none,
             chunkBuffers := List.replicate ([] : List ChunkEntry).length none,
             receivedChunks := 0 } :=
  ⟨(c10_manifest_failure_frame noCryptoEnv c1Msg
      [(some "f", c2Session)]).1 (by decide),
   ((c10_manifest_failure_frame demoEnv c4Msg []).2 c4Manifest [] rfl rfl
      (by decide)).2⟩

end RopixShare
